import Mathlib

/-
  Shallow embedding of the nxp_simtemp character-device driver
  (src/nxp_simtemp.c, src/nxp_simtemp.h).

  The driver state (struct simtemp_dev) is modelled as a Lean structure;
  the ring-buffer helpers, the producer work function, the read path and
  the sysfs store/show handlers become pure state-passing functions.
  Machine integers are modelled as Nat / Int; the only place where
  wrap-around matters is the u32 result of get_random_u32(), modelled by
  an explicit reduction modulo 2^32.  External kernel services
  (ktime_get_ns, get_random_u32, copy_to_user) are inputs or outcome
  parameters of the corresponding functions.
-/

namespace NxpSimtemp

/-- struct simtemp_sample (nxp_simtemp.h): u64 timestamp_ns, s32 temp_mC,
u32 flags; packed, 16 bytes on the wire. -/
structure simtemp_sample where
  timestamp_ns : Nat
  temp_mC : Int
  flags : Nat
deriving Repr, DecidableEq

/-- RING_SIZE = 128 (nxp_simtemp.c line 27). -/
def RING_SIZE : Nat := 128

/-- RB_MASK = RING_SIZE - 1 (nxp_simtemp.c line 28). -/
def RB_MASK : Nat := 127

/-- The zero sample: kzalloc zeroes the backing array at init. -/
def defaultSample : simtemp_sample := ⟨0, 0, 0⟩

/-- struct simtemp_dev (nxp_simtemp.c lines 31-55), restricted to the data
fields.  The spinlock, wait queue, hrtimer and workqueue are concurrency
plumbing with no data content; `ramp` is the function-local static of
simtemp_work_fn (line 213), i.e. module-lifetime mutable state. -/
structure simtemp_dev where
  buf : List simtemp_sample
  head : Nat
  tail : Nat
  total_samples : Nat
  threshold_crossings : Nat
  period_ms : Int
  threshold_mC : Int
  mode : Int
  above_threshold : Bool
  ramp : Int
deriving Repr, DecidableEq

/-- rb_is_empty (line 60): head == tail. -/
def rb_is_empty (d : simtemp_dev) : Bool := d.head == d.tail

/-- rb_is_full (line 65): ((head + 1) % RING_SIZE) == tail. -/
def rb_is_full (d : simtemp_dev) : Bool := (d.head + 1) % RING_SIZE == d.tail

/-- rb_push (lines 70-78): on a full buffer first advance tail (drop the
oldest), then write at head and advance head with the power-of-two mask. -/
def rb_push (d : simtemp_dev) (s : simtemp_sample) : simtemp_dev :=
  let d1 := if rb_is_full d then { d with tail := (d.tail + 1) % RING_SIZE } else d
  { d1 with buf := d1.buf.set d1.head s, head := (d1.head + 1) &&& RB_MASK }

/-- rb_pop (lines 80-87): on empty report false, else hand out buf[tail]
and advance tail. -/
def rb_pop (d : simtemp_dev) : Option simtemp_sample × simtemp_dev :=
  if rb_is_empty d then (none, d)
  else (some (d.buf.getD d.tail defaultSample),
        { d with tail := (d.tail + 1) % RING_SIZE })

/-- Number of live samples: (head - tail) mod RING_SIZE, computed without
Nat underflow. -/
def rb_size (d : simtemp_dev) : Nat := (d.head + RING_SIZE - d.tail) % RING_SIZE

/-- The live samples, oldest first: buf[(tail + i) % RING_SIZE] for
i < rb_size. -/
def rb_contents (d : simtemp_dev) : List simtemp_sample :=
  (List.range (rb_size d)).map
    (fun i => d.buf.getD ((d.tail + i) % RING_SIZE) defaultSample)

/-- Structural invariant of the device: indices in range and the backing
array has its allocated length. -/
def RBInv (d : simtemp_dev) : Prop :=
  d.head < RING_SIZE ∧ d.tail < RING_SIZE ∧ d.buf.length = RING_SIZE

instance (d : simtemp_dev) : Decidable (RBInv d) := by
  unfold RBInv; infer_instance

/- ---- Sample wire format: 16 bytes, little-endian, packed ---- -/

/-- Little-endian bytes of a u64. -/
def u64le (n : Nat) : List Nat := (List.range 8).map (fun i => n / 256 ^ i % 256)

/-- Little-endian bytes of a u32. -/
def u32le (n : Nat) : List Nat := (List.range 4).map (fun i => n / 256 ^ i % 256)

/-- Little-endian bytes of an s32 (two's complement). -/
def s32le (i : Int) : List Nat := u32le (i % 2 ^ 32).toNat

/-- The 16-byte wire image of a sample (offsets 0/8/12 per the packed
struct layout). -/
def sampleBytes (s : simtemp_sample) : List Nat :=
  u64le s.timestamp_ns ++ s32le s.temp_mC ++ u32le s.flags

/- ---- Producer: simtemp_work_fn (lines 193-246) ---- -/

/-- Temperature produced by the mode switch (lines 203-222).  `rand` is
the u32 drawn by get_random_u32(), reduced mod 2^32 at the boundary.
In the C code the ramp case computes the new ramp value once and uses it
both as the sample temperature and as the new static state; here the same
expression appears in gen_temp and gen_ramp. -/
def gen_temp (d : simtemp_dev) (rand : Nat) : Int :=
  if d.mode = 0 then 25000
  else if d.mode = 1 then 25000 + ((rand % 4294967296) % 10000 : Nat) - 5000
  else if d.mode = 2 then (if d.ramp + 123 > 45000 then 20000 else d.ramp + 123)
  else 25000

/-- New value of the static `ramp` after one tick: only the ramp case of
the switch mutates it (lines 213-216). -/
def gen_ramp (d : simtemp_dev) (_rand : Nat) : Int :=
  if d.mode = 2 then (if d.ramp + 123 > 45000 then 20000 else d.ramp + 123)
  else d.ramp

/-- simtemp_work_fn (lines 193-246): generate one sample (timestamp `now`
from ktime_get_ns, flags bit0 = NEW_SAMPLE), run the threshold edge
detector (lines 224-236), push into the ring under the lock and bump
total_samples.  Returns the produced sample together with the new state. -/
def simtemp_work_fn (d : simtemp_dev) (now rand : Nat) :
    simtemp_sample × simtemp_dev :=
  let temp := gen_temp d rand
  let currently_above : Bool := decide (temp > d.threshold_mC)
  let crossed : Bool := currently_above != d.above_threshold
  let s : simtemp_sample :=
    { timestamp_ns := now, temp_mC := temp,
      flags := if crossed then 1 ||| 2 else 1 }
  let d1 : simtemp_dev :=
    { d with
      ramp := gen_ramp d rand,
      above_threshold := if crossed then currently_above else d.above_threshold,
      threshold_crossings :=
        if crossed then d.threshold_crossings + 1 else d.threshold_crossings }
  let d2 := rb_push d1 s
  (s, { d2 with total_samples := d2.total_samples + 1 })

/- ---- Consumer: simtemp_read (lines 262-296) ---- -/

/-- Outcome of one read call.  `ok` carries the bytes copied to the caller
(the return value is their count); einval = -EINVAL, eagain = -EAGAIN,
efault = -EFAULT; `blocked` models the blocking handle suspending on the
wait queue when the buffer is empty (the loop retries after wake-up). -/
inductive ReadResult where
  | ok (bytes : List Nat)
  | einval
  | eagain
  | efault
  | blocked
deriving Repr, DecidableEq

/-- Size of struct simtemp_sample: 8 + 4 + 4 packed bytes. -/
def sampleSize : Nat := 16

/-- simtemp_read (lines 262-296), one attempt of the pop loop.  `nonblock`
is O_NONBLOCK on the handle, `copyOk` is whether copy_to_user succeeds.
Undersized buffers are rejected before any pop; a successful pop followed
by a failed copy still leaves the sample consumed (the C code returns
-EFAULT without restoring it). -/
def simtemp_read (d : simtemp_dev) (count : Nat) (nonblock copyOk : Bool) :
    ReadResult × simtemp_dev :=
  if count < sampleSize then (ReadResult.einval, d)
  else
    match rb_pop d with
    | (some s, d1) =>
        if copyOk then (ReadResult.ok (sampleBytes s), d1)
        else (ReadResult.efault, d1)
    | (none, _) =>
        if nonblock then (ReadResult.eagain, d) else (ReadResult.blocked, d)

/- ---- Control plane: kstrtox parsing and the sysfs handlers ---- -/

/-- The C-string view of the written buffer: kernfs null-terminates the
page at `count`, and the kstrto* parsers stop at the first NUL byte. -/
def cstr (s : List Char) : List Char := s.takeWhile (fun c => c ≠ '\x00')

/-- Value of a digit string, most significant first. -/
def digitsToNat (ds : List Char) : Nat :=
  ds.foldl (fun a c => a * 10 + (c.toNat - 48)) 0

/-- Modelled from lib/kstrtox.c _parse_integer (base 10): consume the
leading run of decimal digits; fail if there is none. -/
def parse_integer (s : List Char) : Option (Nat × List Char) :=
  let ds := s.takeWhile Char.isDigit
  if ds = [] then none
  else some (digitsToNat ds, s.dropWhile Char.isDigit)

/-- Modelled from lib/kstrtox.c _kstrtoull (base 10): digits, then at most
one trailing newline, then end of string. -/
def kstrtoull_tail (s : List Char) : Option Nat :=
  match parse_integer s with
  | none => none
  | some (v, rest) =>
      let rest1 := match rest with
        | '\n' :: r => r
        | r => r
      if rest1 = [] then some v else none

/-- Modelled from lib/kstrtox.c kstrtoull: skip one leading '+'. -/
def kstrtoull (s : List Char) : Option Nat :=
  match s with
  | '+' :: r => kstrtoull_tail r
  | _ => kstrtoull_tail s

/-- Modelled from lib/kstrtox.c kstrtoll: a leading '-' negates the
(unsigned, '+'-less) parse of the remainder. -/
def kstrtoll (s : List Char) : Option Int :=
  match s with
  | '-' :: r => (kstrtoull_tail r).map (fun n => -(n : Int))
  | _ => (kstrtoull s).map (fun n => (n : Int))

/-- kstrtoint(buf, 10, &v) as used by the handlers: parse the C string and
require the result to fit in a 32-bit int (overflow anywhere on the way
yields an error; the value range is what matters to the callers). -/
def kstrtoint (s : List Char) : Option Int :=
  (kstrtoll (cstr s)).bind
    (fun v => if v < -(2 ^ 31) ∨ 2 ^ 31 ≤ v then none else some v)

/-- kstrtos32 is kstrtoint (s32 = int on all kernel targets). -/
def kstrtos32 (s : List Char) : Option Int := kstrtoint s

/-- Outcome of a sysfs store: ok carries the returned byte count. -/
inductive StoreResult where
  | ok (count : Nat)
  | einval
deriving Repr, DecidableEq

/-- sampling_ms_store (lines 98-117): parse, validate [1, 10000], set
period_ms (the hrtimer restart has no data content). -/
def sampling_ms_store (d : simtemp_dev) (buf : List Char) :
    StoreResult × simtemp_dev :=
  match kstrtoint buf with
  | none => (StoreResult.einval, d)
  | some ms =>
      if ms < 1 ∨ ms > 10000 then (StoreResult.einval, d)
      else (StoreResult.ok buf.length, { d with period_ms := ms })

/-- threshold_mC_store (lines 126-138): parse, validate [-50000, 150000],
set threshold_mC. -/
def threshold_mC_store (d : simtemp_dev) (buf : List Char) :
    StoreResult × simtemp_dev :=
  match kstrtos32 buf with
  | none => (StoreResult.einval, d)
  | some mC =>
      if mC < -50000 ∨ mC > 150000 then (StoreResult.einval, d)
      else (StoreResult.ok buf.length, { d with threshold_mC := mC })

/-- mode_store (lines 152-175).  len is count minus one trailing newline;
strncmp(buf, kw, k) == 0 is modelled as buf.take k = kw: the keyword has
no NUL and length k, so the comparison succeeds exactly when the first k
buffer characters are the keyword (a shorter buffer or an embedded NUL
hits the terminator and mismatches). -/
def mode_store (d : simtemp_dev) (buf : List Char) :
    StoreResult × simtemp_dev :=
  let count := buf.length
  let len := if 0 < count ∧ buf.getLast? = some '\n' then count - 1 else count
  if buf.take 6 = "normal".toList ∧ len = 6 then
    (StoreResult.ok count, { d with mode := 0 })
  else if buf.take 5 = "noisy".toList ∧ len = 5 then
    (StoreResult.ok count, { d with mode := 1 })
  else if buf.take 4 = "ramp".toList ∧ len = 4 then
    (StoreResult.ok count, { d with mode := 2 })
  else (StoreResult.einval, d)

/-- sampling_ms_show (lines 92-96): sprintf "%d\n". -/
def sampling_ms_show (d : simtemp_dev) : List Char :=
  (toString d.period_ms).toList ++ ['\n']

/-- threshold_mC_show (lines 120-124): sprintf "%d\n". -/
def threshold_mC_show (d : simtemp_dev) : List Char :=
  (toString d.threshold_mC).toList ++ ['\n']

/-- The mode_str[] table of mode_show (line 144). -/
def mode_str : Int → List Char
  | 0 => "normal".toList
  | 1 => "noisy".toList
  | 2 => "ramp".toList
  | _ => []

/-- mode_show (lines 141-150). -/
def mode_show (d : simtemp_dev) : List Char :=
  if 0 ≤ d.mode ∧ d.mode < 3 then mode_str d.mode ++ ['\n']
  else "unknown".toList ++ ['\n']

/-- simtemp_init (lines 330-386), data part: kzalloc zeroes everything,
then the defaults period_ms = 100, threshold_mC = 45000, mode = 2 (ramp),
above_threshold = false are set; the static `ramp` initializer is 20000
(line 213). -/
def simtemp_init : simtemp_dev :=
  { buf := List.replicate RING_SIZE defaultSample
    head := 0
    tail := 0
    total_samples := 0
    threshold_crossings := 0
    period_ms := 100
    threshold_mC := 45000
    mode := 2
    above_threshold := false
    ramp := 20000 }

/- ---- Operation sequences over the device ---- -/

/-- One externally triggered operation on the device state: a producer
tick, one read attempt, or one of the three writable-attribute stores. -/
inductive SimOp where
  | work (now rand : Nat)
  | read (count : Nat) (nonblock copyOk : Bool)
  | storeSampling (buf : List Char)
  | storeThreshold (buf : List Char)
  | storeMode (buf : List Char)

/-- State after one operation. -/
def applyOp (d : simtemp_dev) : SimOp → simtemp_dev
  | SimOp.work now rand => (simtemp_work_fn d now rand).2
  | SimOp.read count nonblock copyOk => (simtemp_read d count nonblock copyOk).2
  | SimOp.storeSampling buf => (sampling_ms_store d buf).2
  | SimOp.storeThreshold buf => (threshold_mC_store d buf).2
  | SimOp.storeMode buf => (mode_store d buf).2

/-- State after a sequence of operations. -/
def applyOps (d : simtemp_dev) (ops : List SimOp) : simtemp_dev :=
  ops.foldl applyOp d

/-- Spec-side helper for the mode grammar: the written text after
stripping at most one trailing newline. -/
def stripNl (buf : List Char) : List Char :=
  if buf.getLast? = some '\n' then buf.dropLast else buf

/-- A state with exactly one buffered sample, for concrete witnesses. -/
def oneSampleDev : simtemp_dev := rb_push simtemp_init defaultSample

/-- The device in noisy mode, at the init defaults otherwise. -/
def noisyDev : simtemp_dev := { simtemp_init with mode := 1 }

/-- C9 trace: one ramp tick, then a switch to normal, then back to ramp. -/
def c9_d1 : simtemp_dev := (simtemp_work_fn simtemp_init 0 0).2

/-- C9 trace, after writing "normal" to mode. -/
def c9_d2 : simtemp_dev := (mode_store c9_d1 ("normal".toList)).2

/-- C9 trace, after writing "ramp" to mode again. -/
def c9_d3 : simtemp_dev := (mode_store c9_d2 ("ramp".toList)).2

/- ---- Ring buffer lemmas ---- -/

/-- The power-of-two head mask equals reduction mod RING_SIZE. -/
theorem and_mask (n : Nat) : n &&& RB_MASK = n % RING_SIZE := by
  have h := Nat.and_pow_two_sub_one_eq_mod n 7
  simpa [RB_MASK, RING_SIZE] using h

theorem getD_set_ne {α : Type} (l : List α) (i j : Nat) (a dflt : α) (hij : i ≠ j) :
    (l.set i a).getD j dflt = l.getD j dflt := by
  simp [List.getD, List.getElem?_set_ne hij]

theorem getD_set_self {α : Type} (l : List α) (i : Nat) (a dflt : α) (hi : i < l.length) :
    (l.set i a).getD i dflt = a := by
  simp [List.getD, List.getElem?_set_self', hi]

theorem rb_size_eq (d : simtemp_dev) : rb_size d = (d.head + 128 - d.tail) % 128 := by
  simp [rb_size, RING_SIZE]

theorem rb_contents_length (d : simtemp_dev) : (rb_contents d).length = rb_size d := by
  simp [rb_contents]

theorem rb_contents_getElem (d : simtemp_dev) (i : Nat) (h : i < (rb_contents d).length) :
    (rb_contents d)[i] = d.buf.getD ((d.tail + i) % RING_SIZE) defaultSample := by
  simp [rb_contents]

theorem rb_is_empty_iff (d : simtemp_dev) : rb_is_empty d = true ↔ d.head = d.tail := by
  simp [rb_is_empty]

theorem rb_is_full_iff (d : simtemp_dev) :
    rb_is_full d = true ↔ (d.head + 1) % RING_SIZE = d.tail := by
  simp [rb_is_full]

theorem rb_push_inv (d : simtemp_dev) (s : simtemp_sample) (h : RBInv d) :
    RBInv (rb_push d s) := by
  obtain ⟨hh, ht, hb⟩ := h
  simp only [RING_SIZE] at hh ht hb
  unfold rb_push
  by_cases hf : rb_is_full d <;>
    simp only [hf, Bool.false_eq_true, if_true, if_false] <;>
    refine ⟨?_, ?_, ?_⟩ <;>
    dsimp only <;>
    simp [and_mask, RING_SIZE, hb] <;>
    omega

theorem rb_pop_inv (d : simtemp_dev) (h : RBInv d) : RBInv (rb_pop d).2 := by
  obtain ⟨hh, ht, hb⟩ := h
  simp only [RING_SIZE] at hh ht hb
  unfold rb_pop
  by_cases he : rb_is_empty d <;>
    simp only [he, Bool.false_eq_true, if_true, if_false] <;>
    refine ⟨?_, ?_, ?_⟩ <;>
    dsimp only <;>
    simp [RING_SIZE, hb] <;>
    omega

theorem rb_push_contents (d : simtemp_dev) (s : simtemp_sample) (h : RBInv d) :
    rb_contents (rb_push d s) =
      (if rb_is_full d then (rb_contents d).drop 1 else rb_contents d) ++ [s] := by
  obtain ⟨hh, ht, hb⟩ := h
  simp only [RING_SIZE] at hh ht hb
  by_cases hf : rb_is_full d
  · -- full: tail advances, write at head, head lands on the old tail
    have hft : (d.head + 1) % 128 = d.tail := by
      have := (rb_is_full_iff d).mp hf
      simpa [RING_SIZE] using this
    have heq : rb_push d s =
        { d with tail := (d.tail + 1) % RING_SIZE,
                 buf := d.buf.set d.head s,
                 head := (d.head + 1) % RING_SIZE } := by
      simp [rb_push, hf, and_mask]
    have hsz : rb_size d = 127 := by
      rw [rb_size_eq]; omega
    have hsz' : rb_size (rb_push d s) = 127 := by
      rw [heq, rb_size_eq]; dsimp only; simp only [RING_SIZE]; omega
    rw [if_pos hf]
    apply List.ext_getElem
    · simp [rb_contents_length, hsz, hsz']
    · intro i h1 h2
      have hi : i < 127 := by
        rw [rb_contents_length, hsz'] at h1; exact h1
      rw [rb_contents_getElem, heq]
      dsimp only
      have hidx : (((d.tail + 1) % RING_SIZE) + i) % RING_SIZE
          = (d.tail + 1 + i) % RING_SIZE := Nat.mod_add_mod _ _ _
      rw [hidx]
      simp only [RING_SIZE]
      have hdl : ((rb_contents d).drop 1).length = 126 := by
        simp [rb_contents_length, hsz]
      by_cases hlast : i < 126
      · -- untouched slots: the dropped-oldest shift
        have hne : d.head ≠ (d.tail + 1 + i) % 128 := by omega
        rw [getD_set_ne _ _ _ _ _ hne]
        rw [List.getElem_append_left (by omega)]
        rw [List.getElem_drop]
        rw [rb_contents_getElem]
        simp only [RING_SIZE]
        congr 2
        omega
      · -- the new element at the write position
        have hi' : i = 126 := by omega
        subst hi'
        have hidx2 : (d.tail + 1 + 126) % 128 = d.head := by omega
        rw [hidx2]
        rw [getD_set_self _ _ _ _ (by omega)]
        rw [List.getElem_append_right (by omega)]
        simp [hdl]
  · -- not full: append at head
    have hft : ¬ ((d.head + 1) % 128 = d.tail) := by
      intro hc
      exact hf ((rb_is_full_iff d).mpr (by simpa [RING_SIZE] using hc))
    have heq : rb_push d s =
        { d with buf := d.buf.set d.head s,
                 head := (d.head + 1) % RING_SIZE } := by
      simp [rb_push, hf, and_mask]
    have hszd : rb_size d < 127 := by
      rw [rb_size_eq]; omega
    have hsz : rb_size (rb_push d s) = rb_size d + 1 := by
      rw [heq, rb_size_eq, rb_size_eq]; dsimp only; simp only [RING_SIZE]; omega
    rw [if_neg hf]
    apply List.ext_getElem
    · simp [rb_contents_length, hsz]
    · intro i h1 h2
      have hi : i < rb_size d + 1 := by
        rw [rb_contents_length, hsz] at h1; exact h1
      rw [rb_contents_getElem, heq]
      dsimp only
      simp only [RING_SIZE]
      have hszv : rb_size d = (d.head + 128 - d.tail) % 128 := rb_size_eq d
      by_cases hlt : i < rb_size d
      · have hne : d.head ≠ (d.tail + i) % 128 := by omega
        rw [getD_set_ne _ _ _ _ _ hne]
        rw [List.getElem_append_left (by rw [rb_contents_length]; omega)]
        rw [rb_contents_getElem]
        simp only [RING_SIZE]
      · have hi' : i = rb_size d := by omega
        subst hi'
        have hidx : (d.tail + rb_size d) % 128 = d.head := by omega
        rw [hidx]
        rw [getD_set_self _ _ _ _ (by omega)]
        rw [List.getElem_append_right (by rw [rb_contents_length])]
        simp [rb_contents_length]

theorem rb_pop_of_empty (d : simtemp_dev) (he : rb_is_empty d = true) :
    rb_pop d = (none, d) := by
  simp [rb_pop, he]

theorem rb_pop_contents (d : simtemp_dev) (h : RBInv d)
    (hne : rb_is_empty d = false) :
    (rb_pop d).1 = (rb_contents d).head? ∧
    rb_contents (rb_pop d).2 = (rb_contents d).drop 1 := by
  obtain ⟨hh, ht, hb⟩ := h
  simp only [RING_SIZE] at hh ht hb
  have hnt : d.head ≠ d.tail := by
    intro hc
    have := (rb_is_empty_iff d).mpr hc
    rw [hne] at this
    exact Bool.false_ne_true this
  have hsz : 0 < rb_size d := by
    rw [rb_size_eq]; omega
  constructor
  · rw [rb_pop]
    simp only [hne, Bool.false_eq_true, if_false]
    have h0 : 0 < (rb_contents d).length := by rw [rb_contents_length]; omega
    rw [List.head?_eq_getElem?, List.getElem?_eq_getElem h0, rb_contents_getElem]
    have : (d.tail + 0) % RING_SIZE = d.tail := by
      simp only [RING_SIZE]; omega
    rw [this]
  · have heq : (rb_pop d).2 = { d with tail := (d.tail + 1) % RING_SIZE } := by
      simp [rb_pop, hne]
    rw [heq]
    have hsz' : rb_size { d with tail := (d.tail + 1) % RING_SIZE } = rb_size d - 1 := by
      rw [rb_size_eq, rb_size_eq]; dsimp only; simp only [RING_SIZE]; omega
    apply List.ext_getElem
    · simp [rb_contents_length, hsz', hsz]
    · intro i h1 h2
      rw [rb_contents_getElem, List.getElem_drop, rb_contents_getElem]
      dsimp only
      have hidx : (((d.tail + 1) % RING_SIZE) + i) % RING_SIZE
          = (d.tail + (1 + i)) % RING_SIZE := by
        rw [Nat.mod_add_mod]; congr 1; omega
      rw [hidx]

/- ---- Claim C2 ---- -/

/-- Claim C2: for the N = 128 ring buffer, every push and every pop
preserves the invariants: head and tail are always in [0, 128), the
buffer is empty iff head == tail, and full iff (head+1) mod 128 == tail;
push never fails (it is total) and, on a full buffer, drops the oldest
Sample by advancing tail before writing at head; pop returns the oldest
stored Sample when non-empty and reports empty otherwise. -/
theorem C2_ring_buffer (d : simtemp_dev) (s : simtemp_sample) (h : RBInv d) :
    RBInv (rb_push d s) ∧
    RBInv (rb_pop d).2 ∧
    (rb_is_empty d = true ↔ d.head = d.tail) ∧
    (rb_is_empty d = true ↔ rb_contents d = []) ∧
    (rb_is_full d = true ↔ (d.head + 1) % RING_SIZE = d.tail) ∧
    (rb_is_full d = true → (rb_push d s).tail = (d.tail + 1) % RING_SIZE) ∧
    rb_contents (rb_push d s) =
      (if rb_is_full d then (rb_contents d).drop 1 else rb_contents d) ++ [s] ∧
    (rb_is_empty d = true → rb_pop d = (none, d)) ∧
    (rb_is_empty d = false →
      (rb_pop d).1 = (rb_contents d).head? ∧
      rb_contents (rb_pop d).2 = (rb_contents d).drop 1) := by
  obtain ⟨hh, ht, hb⟩ := h
  refine ⟨rb_push_inv d s ⟨hh, ht, hb⟩, rb_pop_inv d ⟨hh, ht, hb⟩,
    rb_is_empty_iff d, ?_, rb_is_full_iff d, ?_,
    rb_push_contents d s ⟨hh, ht, hb⟩, rb_pop_of_empty d,
    fun hne => rb_pop_contents d ⟨hh, ht, hb⟩ hne⟩
  · rw [rb_is_empty_iff]
    simp only [RING_SIZE] at hh ht
    constructor
    · intro he
      have hz : rb_size d = 0 := by rw [rb_size_eq]; omega
      have hl : (rb_contents d).length = 0 := by rw [rb_contents_length, hz]
      exact List.length_eq_zero.mp hl
    · intro hc
      have hl : (rb_contents d).length = 0 := by rw [hc]; rfl
      rw [rb_contents_length, rb_size_eq] at hl
      omega
  · intro hf
    unfold rb_push
    rw [if_pos hf]

/-- Witness for C2 at a concrete state: pushing into the freshly
initialized (empty) buffer appends the sample. -/
theorem C2_ring_buffer_witness :
    rb_contents (rb_push simtemp_init defaultSample) =
      (if rb_is_full simtemp_init then (rb_contents simtemp_init).drop 1
       else rb_contents simtemp_init) ++ [defaultSample] :=
  (C2_ring_buffer simtemp_init defaultSample
    (by refine ⟨?_, ?_, ?_⟩ <;> simp [RBInv, simtemp_init, RING_SIZE])).2.2.2.2.2.2.1

/- ---- Producer, consumer and control-plane lemmas; claims ---- -/

/-- Fields of rb_push's result other than the buffer and indices are
those of the argument. -/
theorem rb_push_proj (d : simtemp_dev) (s : simtemp_sample) :
    (rb_push d s).total_samples = d.total_samples ∧
    (rb_push d s).threshold_crossings = d.threshold_crossings ∧
    (rb_push d s).above_threshold = d.above_threshold ∧
    (rb_push d s).ramp = d.ramp ∧
    (rb_push d s).mode = d.mode ∧
    (rb_push d s).period_ms = d.period_ms ∧
    (rb_push d s).threshold_mC = d.threshold_mC := by
  unfold rb_push
  by_cases hf : rb_is_full d
  · rw [if_pos hf]; exact ⟨rfl, rfl, rfl, rfl, rfl, rfl, rfl⟩
  · rw [if_neg hf]; exact ⟨rfl, rfl, rfl, rfl, rfl, rfl, rfl⟩

/-- Fields of rb_pop's result state other than tail are those of the
argument. -/
theorem rb_pop_proj (d : simtemp_dev) :
    (rb_pop d).2.total_samples = d.total_samples ∧
    (rb_pop d).2.threshold_crossings = d.threshold_crossings ∧
    (rb_pop d).2.above_threshold = d.above_threshold ∧
    (rb_pop d).2.ramp = d.ramp ∧
    (rb_pop d).2.mode = d.mode ∧
    (rb_pop d).2.period_ms = d.period_ms ∧
    (rb_pop d).2.threshold_mC = d.threshold_mC ∧
    (rb_pop d).2.buf = d.buf ∧
    (rb_pop d).2.head = d.head := by
  unfold rb_pop
  by_cases he : rb_is_empty d
  · rw [if_pos he]; exact ⟨rfl, rfl, rfl, rfl, rfl, rfl, rfl, rfl, rfl⟩
  · rw [if_neg he]; exact ⟨rfl, rfl, rfl, rfl, rfl, rfl, rfl, rfl, rfl⟩

/-- Field-level description of one producer tick. -/
theorem work_fn_fields (d : simtemp_dev) (now rand : Nat) :
    (simtemp_work_fn d now rand).1.temp_mC = gen_temp d rand ∧
    (simtemp_work_fn d now rand).1.timestamp_ns = now ∧
    (simtemp_work_fn d now rand).1.flags =
      (if decide (gen_temp d rand > d.threshold_mC) != d.above_threshold
       then 3 else 1) ∧
    (simtemp_work_fn d now rand).2.threshold_crossings =
      (if decide (gen_temp d rand > d.threshold_mC) != d.above_threshold
       then d.threshold_crossings + 1 else d.threshold_crossings) ∧
    (simtemp_work_fn d now rand).2.above_threshold =
      (if decide (gen_temp d rand > d.threshold_mC) != d.above_threshold
       then decide (gen_temp d rand > d.threshold_mC) else d.above_threshold) ∧
    (simtemp_work_fn d now rand).2.total_samples = d.total_samples + 1 ∧
    (simtemp_work_fn d now rand).2.ramp = gen_ramp d rand ∧
    (simtemp_work_fn d now rand).2.mode = d.mode ∧
    (simtemp_work_fn d now rand).2.period_ms = d.period_ms ∧
    (simtemp_work_fn d now rand).2.threshold_mC = d.threshold_mC := by
  unfold simtemp_work_fn
  dsimp only
  obtain ⟨p1, p2, p3, p4, p5, p6, p7⟩ := rb_push_proj
    { d with
      ramp := gen_ramp d rand,
      above_threshold :=
        if (decide (gen_temp d rand > d.threshold_mC) != d.above_threshold)
        then decide (gen_temp d rand > d.threshold_mC) else d.above_threshold,
      threshold_crossings :=
        if (decide (gen_temp d rand > d.threshold_mC) != d.above_threshold)
        then d.threshold_crossings + 1 else d.threshold_crossings }
    { timestamp_ns := now, temp_mC := gen_temp d rand,
      flags := if (decide (gen_temp d rand > d.threshold_mC) != d.above_threshold)
               then 1 ||| 2 else 1 }
  refine ⟨rfl, rfl, ?_, ?_, ?_, ?_, ?_, ?_, ?_, ?_⟩
  · split <;> decide
  · rw [p2]
  · rw [p3]
  · rw [p1]
  · rw [p4]
  · rw [p5]
  · rw [p6]
  · rw [p7]


/-- Claim C1: for every produced Sample the detector computes
currently_above = (temp_mC > threshold_mC) with strict greater-than
(equality counts as not above); iff currently_above differs from the
stored above_threshold, the Sample's THRESHOLD_CROSSED flag (bit 1) is
set, threshold_crossings is incremented by one and above_threshold is
updated; otherwise the flag stays clear and detector state and counter
are unchanged. -/
theorem C1_threshold_detector (d : simtemp_dev) (now rand : Nat) :
    ((simtemp_work_fn d now rand).1.flags &&& 2 ≠ 0 ↔
      decide ((simtemp_work_fn d now rand).1.temp_mC > d.threshold_mC)
        ≠ d.above_threshold) ∧
    ((simtemp_work_fn d now rand).1.temp_mC = d.threshold_mC →
      ((simtemp_work_fn d now rand).1.flags &&& 2 ≠ 0 ↔
        d.above_threshold = true)) ∧
    (decide ((simtemp_work_fn d now rand).1.temp_mC > d.threshold_mC)
        ≠ d.above_threshold →
      (simtemp_work_fn d now rand).2.threshold_crossings
          = d.threshold_crossings + 1 ∧
      (simtemp_work_fn d now rand).2.above_threshold
          = decide ((simtemp_work_fn d now rand).1.temp_mC > d.threshold_mC)) ∧
    (decide ((simtemp_work_fn d now rand).1.temp_mC > d.threshold_mC)
        = d.above_threshold →
      (simtemp_work_fn d now rand).1.flags &&& 2 = 0 ∧
      (simtemp_work_fn d now rand).2.threshold_crossings = d.threshold_crossings ∧
      (simtemp_work_fn d now rand).2.above_threshold = d.above_threshold) := by
  obtain ⟨ht, -, hf, hc, ha, -, -, -, -, -⟩ := work_fn_fields d now rand
  rw [ht, hf, hc, ha]
  by_cases hcr : decide (gen_temp d rand > d.threshold_mC) = d.above_threshold
  · have hb : (decide (gen_temp d rand > d.threshold_mC) != d.above_threshold)
        = false := by simp [hcr]
    rw [hb]
    simp only [Bool.false_eq_true, if_false]
    refine ⟨?_, ?_, ?_, ?_⟩
    · constructor
      · intro h1; exact absurd (by decide : (1 : Nat) &&& 2 = 0) h1
      · intro h2; exact absurd hcr h2
    · intro hteq
      have hdec : decide (gen_temp d rand > d.threshold_mC) = false := by
        simp [hteq]
      constructor
      · intro h1; exact absurd (by decide : (1 : Nat) &&& 2 = 0) h1
      · intro habove
        have hcontra : (false : Bool) = true := by
          rw [← hdec, hcr, habove]
        exact absurd hcontra (by decide)
    · intro h; exact absurd hcr h
    · intro _; exact ⟨by decide, by trivial, by trivial⟩
  · have hb : (decide (gen_temp d rand > d.threshold_mC) != d.above_threshold)
        = true := by simp [bne_iff_ne]; exact hcr
    rw [hb]
    simp only [if_true]
    refine ⟨?_, ?_, ?_, ?_⟩
    · constructor
      · intro _; exact hcr
      · intro _; decide
    · intro hteq
      have hdec : decide (gen_temp d rand > d.threshold_mC) = false := by
        simp [hteq]
      constructor
      · intro _
        cases hab : d.above_threshold
        · rw [hdec, hab] at hcr; exact absurd rfl hcr
        · rfl
      · intro _; decide
    · intro _; exact ⟨by trivial, by trivial⟩
    · intro h; exact absurd h hcr

/-- sampling_ms_store changes at most period_ms. -/
theorem sampling_ms_store_proj (d : simtemp_dev) (buf : List Char) :
    (sampling_ms_store d buf).2.total_samples = d.total_samples ∧
    (sampling_ms_store d buf).2.threshold_crossings = d.threshold_crossings ∧
    (sampling_ms_store d buf).2.above_threshold = d.above_threshold ∧
    (sampling_ms_store d buf).2.ramp = d.ramp ∧
    (sampling_ms_store d buf).2.mode = d.mode ∧
    (sampling_ms_store d buf).2.threshold_mC = d.threshold_mC ∧
    (sampling_ms_store d buf).2.buf = d.buf ∧
    (sampling_ms_store d buf).2.head = d.head ∧
    (sampling_ms_store d buf).2.tail = d.tail := by
  unfold sampling_ms_store
  rcases h : kstrtoint buf with - | v
  · exact ⟨rfl, rfl, rfl, rfl, rfl, rfl, rfl, rfl, rfl⟩
  · dsimp only
    split
    · exact ⟨rfl, rfl, rfl, rfl, rfl, rfl, rfl, rfl, rfl⟩
    · exact ⟨rfl, rfl, rfl, rfl, rfl, rfl, rfl, rfl, rfl⟩

/-- threshold_mC_store changes at most threshold_mC. -/
theorem threshold_mC_store_proj (d : simtemp_dev) (buf : List Char) :
    (threshold_mC_store d buf).2.total_samples = d.total_samples ∧
    (threshold_mC_store d buf).2.threshold_crossings = d.threshold_crossings ∧
    (threshold_mC_store d buf).2.above_threshold = d.above_threshold ∧
    (threshold_mC_store d buf).2.ramp = d.ramp ∧
    (threshold_mC_store d buf).2.mode = d.mode ∧
    (threshold_mC_store d buf).2.period_ms = d.period_ms ∧
    (threshold_mC_store d buf).2.buf = d.buf ∧
    (threshold_mC_store d buf).2.head = d.head ∧
    (threshold_mC_store d buf).2.tail = d.tail := by
  unfold threshold_mC_store kstrtos32
  rcases h : kstrtoint buf with - | v
  · exact ⟨rfl, rfl, rfl, rfl, rfl, rfl, rfl, rfl, rfl⟩
  · dsimp only
    split
    · exact ⟨rfl, rfl, rfl, rfl, rfl, rfl, rfl, rfl, rfl⟩
    · exact ⟨rfl, rfl, rfl, rfl, rfl, rfl, rfl, rfl, rfl⟩

/-- mode_store changes at most mode. -/
theorem mode_store_proj (d : simtemp_dev) (buf : List Char) :
    (mode_store d buf).2.total_samples = d.total_samples ∧
    (mode_store d buf).2.threshold_crossings = d.threshold_crossings ∧
    (mode_store d buf).2.above_threshold = d.above_threshold ∧
    (mode_store d buf).2.ramp = d.ramp ∧
    (mode_store d buf).2.period_ms = d.period_ms ∧
    (mode_store d buf).2.threshold_mC = d.threshold_mC ∧
    (mode_store d buf).2.buf = d.buf ∧
    (mode_store d buf).2.head = d.head ∧
    (mode_store d buf).2.tail = d.tail := by
  unfold mode_store
  dsimp only
  repeat' split
  all_goals exact ⟨rfl, rfl, rfl, rfl, rfl, rfl, rfl, rfl, rfl⟩

/-- simtemp_read never changes anything but the ring tail. -/
theorem simtemp_read_proj (d : simtemp_dev) (count : Nat) (nonblock copyOk : Bool) :
    (simtemp_read d count nonblock copyOk).2.total_samples = d.total_samples ∧
    (simtemp_read d count nonblock copyOk).2.threshold_crossings = d.threshold_crossings ∧
    (simtemp_read d count nonblock copyOk).2.above_threshold = d.above_threshold ∧
    (simtemp_read d count nonblock copyOk).2.ramp = d.ramp ∧
    (simtemp_read d count nonblock copyOk).2.mode = d.mode ∧
    (simtemp_read d count nonblock copyOk).2.period_ms = d.period_ms ∧
    (simtemp_read d count nonblock copyOk).2.threshold_mC = d.threshold_mC ∧
    (simtemp_read d count nonblock copyOk).2.buf = d.buf ∧
    (simtemp_read d count nonblock copyOk).2.head = d.head := by
  obtain ⟨q1, q2, q3, q4, q5, q6, q7, q8, q9⟩ := rb_pop_proj d
  unfold simtemp_read
  split
  · exact ⟨rfl, rfl, rfl, rfl, rfl, rfl, rfl, rfl, rfl⟩
  · split
    · next s d1 heq =>
      have h2 : (rb_pop d).2 = d1 := by rw [heq]
      rw [h2] at q1 q2 q3 q4 q5 q6 q7 q8 q9
      split
      · exact ⟨q1, q2, q3, q4, q5, q6, q7, q8, q9⟩
      · exact ⟨q1, q2, q3, q4, q5, q6, q7, q8, q9⟩
    · split
      · exact ⟨rfl, rfl, rfl, rfl, rfl, rfl, rfl, rfl, rfl⟩
      · exact ⟨rfl, rfl, rfl, rfl, rfl, rfl, rfl, rfl, rfl⟩

/-- Both statistics counters never decrease across one operation. -/
theorem applyOp_counters_mono (d : simtemp_dev) (op : SimOp) :
    d.total_samples ≤ (applyOp d op).total_samples ∧
    d.threshold_crossings ≤ (applyOp d op).threshold_crossings := by
  cases op with
  | work now rand =>
      obtain ⟨-, -, -, hc, -, htot, -, -, -, -⟩ := work_fn_fields d now rand
      unfold applyOp
      rw [htot, hc]
      constructor
      · omega
      · split <;> omega
  | read count nonblock copyOk =>
      obtain ⟨q1, q2, -, -, -, -, -, -, -⟩ := simtemp_read_proj d count nonblock copyOk
      unfold applyOp
      rw [q1, q2]
      exact ⟨le_refl _, le_refl _⟩
  | storeSampling buf =>
      obtain ⟨q1, q2, -, -, -, -, -, -, -⟩ := sampling_ms_store_proj d buf
      unfold applyOp
      rw [q1, q2]
      exact ⟨le_refl _, le_refl _⟩
  | storeThreshold buf =>
      obtain ⟨q1, q2, -, -, -, -, -, -, -⟩ := threshold_mC_store_proj d buf
      unfold applyOp
      rw [q1, q2]
      exact ⟨le_refl _, le_refl _⟩
  | storeMode buf =>
      obtain ⟨q1, q2, -, -, -, -, -, -, -⟩ := mode_store_proj d buf
      unfold applyOp
      rw [q1, q2]
      exact ⟨le_refl _, le_refl _⟩

/-- Both statistics counters never decrease across any sequence. -/
theorem applyOps_counters_mono (ops : List SimOp) (d : simtemp_dev) :
    d.total_samples ≤ (applyOps d ops).total_samples ∧
    d.threshold_crossings ≤ (applyOps d ops).threshold_crossings := by
  induction ops generalizing d with
  | nil => exact ⟨le_refl _, le_refl _⟩
  | cons op ops ih =>
      have h1 := applyOp_counters_mono d op
      have h2 := ih (applyOp d op)
      exact ⟨le_trans h1.1 h2.1, le_trans h1.2 h2.2⟩

/-- The ramp state stays within [20000, 45000] across one operation. -/
theorem applyOp_ramp_bounds (d : simtemp_dev) (op : SimOp)
    (h1 : 20000 ≤ d.ramp) (h2 : d.ramp ≤ 45000) :
    20000 ≤ (applyOp d op).ramp ∧ (applyOp d op).ramp ≤ 45000 := by
  cases op with
  | work now rand =>
      obtain ⟨-, -, -, -, -, -, hr, -, -, -⟩ := work_fn_fields d now rand
      unfold applyOp
      rw [hr]
      unfold gen_ramp
      split
      · split <;> omega
      · omega
  | read count nonblock copyOk =>
      obtain ⟨-, -, -, q4, -, -, -, -, -⟩ := simtemp_read_proj d count nonblock copyOk
      unfold applyOp
      rw [q4]
      omega
  | storeSampling buf =>
      obtain ⟨-, -, -, q4, -, -, -, -, -⟩ := sampling_ms_store_proj d buf
      unfold applyOp
      rw [q4]
      omega
  | storeThreshold buf =>
      obtain ⟨-, -, -, q4, -, -, -, -, -⟩ := threshold_mC_store_proj d buf
      unfold applyOp
      rw [q4]
      omega
  | storeMode buf =>
      obtain ⟨-, -, -, q4, -, -, -, -, -⟩ := mode_store_proj d buf
      unfold applyOp
      rw [q4]
      omega

/-- The ramp state stays within [20000, 45000] across any sequence. -/
theorem applyOps_ramp_bounds (ops : List SimOp) (d : simtemp_dev)
    (h1 : 20000 ≤ d.ramp) (h2 : d.ramp ≤ 45000) :
    20000 ≤ (applyOps d ops).ramp ∧ (applyOps d ops).ramp ≤ 45000 := by
  induction ops generalizing d with
  | nil => exact ⟨h1, h2⟩
  | cons op ops ih =>
      have h := applyOp_ramp_bounds d op h1 h2
      exact ih (applyOp d op) h.1 h.2

/-- Claim C5: every produced Sample has flags with bit 0 (NEW_SAMPLE)
set and bits 2..31 zero; every production increments total_samples by
exactly one (unconditionally, hence also when the push overwrites), and
threshold_crossings increments exactly on detected edges; both counters
are monotonically non-decreasing over any sequence of operations. -/
theorem C5_flags_counters (d : simtemp_dev) (now rand : Nat) (ops : List SimOp) :
    (simtemp_work_fn d now rand).1.flags.testBit 0 = true ∧
    (∀ i, 2 ≤ i → (simtemp_work_fn d now rand).1.flags.testBit i = false) ∧
    (simtemp_work_fn d now rand).2.total_samples = d.total_samples + 1 ∧
    ((decide ((simtemp_work_fn d now rand).1.temp_mC > d.threshold_mC)
        ≠ d.above_threshold →
      (simtemp_work_fn d now rand).2.threshold_crossings
        = d.threshold_crossings + 1) ∧
     (decide ((simtemp_work_fn d now rand).1.temp_mC > d.threshold_mC)
        = d.above_threshold →
      (simtemp_work_fn d now rand).2.threshold_crossings
        = d.threshold_crossings)) ∧
    d.total_samples ≤ (applyOps d ops).total_samples ∧
    d.threshold_crossings ≤ (applyOps d ops).threshold_crossings := by
  obtain ⟨ht, -, hf, hc, -, htot, -, -, -, -⟩ := work_fn_fields d now rand
  obtain ⟨hm1, hm2⟩ := applyOps_counters_mono ops d
  refine ⟨?_, ?_, htot, ⟨?_, ?_⟩, hm1, hm2⟩
  · rw [hf]; split <;> decide
  · intro i hi
    rw [hf]
    apply Nat.testBit_lt_two_pow
    have h4 : (4 : Nat) ≤ 2 ^ i := by
      calc (4 : Nat) = 2 ^ 2 := by norm_num
      _ ≤ 2 ^ i := Nat.pow_le_pow_right (by norm_num) hi
    have : (if decide (gen_temp d rand > d.threshold_mC) != d.above_threshold
        then (3 : Nat) else 1) < 4 := by split <;> norm_num
    omega
  · intro hne
    rw [ht] at hne
    have hb : (decide (gen_temp d rand > d.threshold_mC) != d.above_threshold)
        = true := by simp [bne_iff_ne]; exact hne
    rw [hc, hb, if_pos rfl]
  · intro heq
    rw [ht] at heq
    have hb : (decide (gen_temp d rand > d.threshold_mC) != d.above_threshold)
        = false := by simp [heq]
    rw [hc, hb]
    simp

/-- Claim C6: in ramp mode the generator is a sawtooth: the ramp state
starts at 20000 and advances by +123 on each tick; when the increment
would exceed 45000 the state resets to 20000; consequently every
ramp-mode Sample's temp_mC lies in [20000, 45000]. -/
theorem C6_ramp_generator (ops : List SimOp) (now rand : Nat)
    (h : (applyOps simtemp_init ops).mode = 2) :
    simtemp_init.ramp = 20000 ∧
    20000 ≤ (applyOps simtemp_init ops).ramp ∧
    (applyOps simtemp_init ops).ramp ≤ 45000 ∧
    (simtemp_work_fn (applyOps simtemp_init ops) now rand).1.temp_mC =
      (if (applyOps simtemp_init ops).ramp + 123 > 45000 then 20000
       else (applyOps simtemp_init ops).ramp + 123) ∧
    (simtemp_work_fn (applyOps simtemp_init ops) now rand).2.ramp =
      (simtemp_work_fn (applyOps simtemp_init ops) now rand).1.temp_mC ∧
    20000 ≤ (simtemp_work_fn (applyOps simtemp_init ops) now rand).1.temp_mC ∧
    (simtemp_work_fn (applyOps simtemp_init ops) now rand).1.temp_mC ≤ 45000 := by
  have hb := applyOps_ramp_bounds ops simtemp_init
    (by norm_num [simtemp_init]) (by norm_num [simtemp_init])
  obtain ⟨ht, -, -, -, -, -, hr, -, -, -⟩ :=
    work_fn_fields (applyOps simtemp_init ops) now rand
  have hgt : gen_temp (applyOps simtemp_init ops) rand =
      (if (applyOps simtemp_init ops).ramp + 123 > 45000 then 20000
       else (applyOps simtemp_init ops).ramp + 123) := by
    unfold gen_temp
    rw [h]
    norm_num
  have hgr : gen_ramp (applyOps simtemp_init ops) rand =
      (if (applyOps simtemp_init ops).ramp + 123 > 45000 then 20000
       else (applyOps simtemp_init ops).ramp + 123) := by
    unfold gen_ramp
    rw [h]
    norm_num
  refine ⟨rfl, hb.1, hb.2, ?_, ?_, ?_, ?_⟩
  · rw [ht, hgt]
  · rw [hr, ht, hgr, hgt]
  · rw [ht, hgt]
    obtain ⟨b1, b2⟩ := hb
    split <;> omega
  · rw [ht, hgt]
    obtain ⟨b1, b2⟩ := hb
    split <;> omega

theorem sampleBytes_length (s : simtemp_sample) : (sampleBytes s).length = 16 := by
  simp [sampleBytes, u64le, u32le, s32le]

theorem simtemp_init_inv : RBInv simtemp_init := by
  refine ⟨?_, ?_, ?_⟩ <;> simp [RBInv, simtemp_init, RING_SIZE]

theorem oneSampleDev_inv : RBInv oneSampleDev :=
  rb_push_inv simtemp_init defaultSample simtemp_init_inv

/-- Claim C3: a read with count < 16 fails with INVALID_ARGUMENT and
consumes no Sample; a read on an empty buffer with a non-blocking handle
fails with WOULD_BLOCK and consumes no Sample; every successful read
removes exactly one Sample and returns exactly 16 bytes. -/
theorem C3_read_contract (d : simtemp_dev) (count : Nat) (nonblock copyOk : Bool)
    (h : RBInv d) :
    (count < 16 → simtemp_read d count nonblock copyOk = (ReadResult.einval, d)) ∧
    (16 ≤ count → rb_is_empty d = true → nonblock = true →
      simtemp_read d count nonblock copyOk = (ReadResult.eagain, d)) ∧
    (∀ bytes d1, simtemp_read d count nonblock copyOk = (ReadResult.ok bytes, d1) →
      bytes.length = 16 ∧
      rb_is_empty d = false ∧
      rb_contents d1 = (rb_contents d).drop 1 ∧
      rb_size d1 + 1 = rb_size d) := by
  refine ⟨?_, ?_, ?_⟩
  · intro hlt
    unfold simtemp_read sampleSize
    rw [if_pos hlt]
  · intro hge he hnb
    have hnotlt : ¬ (count < sampleSize) := by
      unfold sampleSize; omega
    unfold simtemp_read
    rw [if_neg hnotlt, rb_pop_of_empty d he]
    dsimp only
    rw [hnb, if_pos rfl]
  · intro bytes d1 heq
    by_cases hlt : count < sampleSize
    · unfold simtemp_read at heq
      rw [if_pos hlt] at heq
      exact absurd (congrArg Prod.fst heq) (by simp)
    · rcases hp : rb_pop d with ⟨os, d2⟩
      unfold simtemp_read at heq
      rw [if_neg hlt, hp] at heq
      cases os with
      | none =>
          dsimp only at heq
          cases nonblock with
          | true => exact absurd (congrArg Prod.fst heq) (by simp)
          | false => exact absurd (congrArg Prod.fst heq) (by simp)
      | some s =>
          dsimp only at heq
          cases copyOk with
          | false => exact absurd (congrArg Prod.fst heq) (by simp)
          | true =>
              have hb : bytes = sampleBytes s := by
                have := congrArg Prod.fst heq
                simpa using this.symm
              have hd : d2 = d1 := congrArg Prod.snd heq
              have hne : rb_is_empty d = false := by
                cases hee : rb_is_empty d with
                | false => rfl
                | true =>
                    rw [rb_pop_of_empty d hee] at hp
                    exact absurd (congrArg Prod.fst hp) (by simp)
              obtain ⟨-, hcont⟩ := rb_pop_contents d h hne
              have hp2 : (rb_pop d).2 = d1 := by rw [hp, hd]
              rw [hp2] at hcont
              refine ⟨by rw [hb, sampleBytes_length], hne, hcont, ?_⟩
              have hlen := congrArg List.length hcont
              rw [rb_contents_length, List.length_drop, rb_contents_length] at hlen
              have hpos : 0 < rb_size d := by
                obtain ⟨hh, ht, hbuf⟩ := h
                simp only [RING_SIZE] at hh ht
                have hnt : d.head ≠ d.tail := by
                  intro hcd
                  have := (rb_is_empty_iff d).mpr hcd
                  rw [hne] at this
                  exact Bool.false_ne_true this
                rw [rb_size_eq]
                omega
              omega

/-- Claim C10: when the copy to the caller's buffer fails, read returns
IO_ERROR but the Sample has already been removed from the ring buffer
and is not restored: the state is the popped state, the oldest Sample is
gone from the contents, and the buffer state did change. -/
theorem C10_lost_sample (d : simtemp_dev) (count : Nat) (nonblock : Bool)
    (h : RBInv d) (hne : rb_is_empty d = false) (hc : 16 ≤ count) :
    (simtemp_read d count nonblock false).1 = ReadResult.efault ∧
    (simtemp_read d count nonblock false).2 = (rb_pop d).2 ∧
    rb_contents (simtemp_read d count nonblock false).2 = (rb_contents d).drop 1 ∧
    (simtemp_read d count nonblock false).2.tail ≠ d.tail := by
  have hnotlt : ¬ (count < sampleSize) := by
    unfold sampleSize; omega
  have hp : rb_pop d = (some (d.buf.getD d.tail defaultSample),
      { d with tail := (d.tail + 1) % RING_SIZE }) := by
    unfold rb_pop
    rw [if_neg (by simp [hne])]
  have hread : simtemp_read d count nonblock false =
      (ReadResult.efault, { d with tail := (d.tail + 1) % RING_SIZE }) := by
    unfold simtemp_read
    rw [if_neg hnotlt, hp]
    dsimp only
    simp
  obtain ⟨-, hcont⟩ := rb_pop_contents d h hne
  refine ⟨by rw [hread], by rw [hread, hp], ?_, ?_⟩
  · rw [hread]
    rw [hp] at hcont
    exact hcont
  · rw [hread]
    obtain ⟨hh, ht, -⟩ := h
    simp only [RING_SIZE] at hh ht ⊢
    omega

/-- The noisy-mode temperature as a function of the RNG draw. -/
theorem noisy_temp (d : simtemp_dev) (now rand : Nat) (h : d.mode = 1) :
    (simtemp_work_fn d now rand).1.temp_mC =
      25000 + ((rand % 4294967296) % 10000 : Nat) - 5000 := by
  obtain ⟨ht, -, -, -, -, -, -, -, -, -⟩ := work_fn_fields d now rand
  rw [ht]
  unfold gen_temp
  rw [h]
  norm_num

/-- Claim C7 counterexample: in noisy mode the value 30000 is never
produced, for any RNG draw, refuting the claim that the range
[20000, 30000] is inclusive at the top end. -/
theorem C7_counterexample :
    ¬ ∃ now rand : Nat, (simtemp_work_fn noisyDev now rand).1.temp_mC = 30000 := by
  rintro ⟨now, rand, hx⟩
  rw [noisy_temp noisyDev now rand rfl] at hx
  have hb : (rand % 4294967296) % 10000 < 10000 := Nat.mod_lt _ (by norm_num)
  omega

/-- Claim C7 as amended: in noisy mode every draw yields temp_mC in
[20000, 29999]; both endpoints 20000 and 29999 are attained. -/
theorem C7_noisy_range (d : simtemp_dev) (now rand : Nat) (h : d.mode = 1) :
    20000 ≤ (simtemp_work_fn d now rand).1.temp_mC ∧
    (simtemp_work_fn d now rand).1.temp_mC ≤ 29999 ∧
    (∃ r : Nat, (simtemp_work_fn d now r).1.temp_mC = 20000) ∧
    (∃ r : Nat, (simtemp_work_fn d now r).1.temp_mC = 29999) := by
  have hb : (rand % 4294967296) % 10000 < 10000 := Nat.mod_lt _ (by norm_num)
  rw [noisy_temp d now rand h]
  refine ⟨by omega, by omega, ⟨0, ?_⟩, ⟨9999, ?_⟩⟩
  · rw [noisy_temp d now 0 h]
    norm_num
  · rw [noisy_temp d now 9999 h]
    norm_num

/-- Claim C9 counterexample: after one ramp tick (ramp state 20123), a
switch to normal and a switch back to ramp, the ramp state is still
20123, not 20000: switching to ramp does not reset the generator, and
the next Sample continues the old ramp at 20246. -/
theorem C9_counterexample :
    c9_d1.mode = 2 ∧ c9_d1.ramp = 20123 ∧
    c9_d2.mode = 0 ∧
    (mode_store c9_d2 ("ramp".toList)).1 = StoreResult.ok 4 ∧
    c9_d3.mode = 2 ∧
    c9_d3.ramp = 20123 ∧
    ¬ (c9_d3.ramp = 20000) ∧
    (simtemp_work_fn c9_d3 0 0).1.temp_mC = 20246 := by
  decide

/-- Claim C9 as amended: no attribute write (in particular no mode
switch) ever alters the generator's ramp state; it persists across mode
changes, and the first ramp-mode tick after a switch continues from the
persisted state. -/
theorem C9_ramp_persistence (d : simtemp_dev) (buf : List Char) (now rand : Nat) :
    (mode_store d buf).2.ramp = d.ramp ∧
    (sampling_ms_store d buf).2.ramp = d.ramp ∧
    (threshold_mC_store d buf).2.ramp = d.ramp ∧
    (d.mode = 2 →
      (simtemp_work_fn d now rand).1.temp_mC =
        (if d.ramp + 123 > 45000 then 20000 else d.ramp + 123)) := by
  refine ⟨(mode_store_proj d buf).2.2.2.1, (sampling_ms_store_proj d buf).2.2.2.1,
    (threshold_mC_store_proj d buf).2.2.2.1, ?_⟩
  intro h
  obtain ⟨ht, -, -, -, -, -, -, -, -, -⟩ := work_fn_fields d now rand
  rw [ht]
  unfold gen_temp
  rw [h]
  norm_num

/-- stripNl is a take of the code's len. -/
theorem stripNl_eq_take (buf : List Char) :
    stripNl buf = buf.take
      (if 0 < buf.length ∧ buf.getLast? = some '\n' then buf.length - 1
       else buf.length) := by
  unfold stripNl
  by_cases h : buf.getLast? = some '\n'
  · have hne : buf ≠ [] := by intro hc; rw [hc] at h; simp at h
    have hlen : 0 < buf.length := List.length_pos.mpr hne
    rw [if_pos h, if_pos ⟨hlen, h⟩, List.dropLast_eq_take]
  · rw [if_neg h, if_neg (fun hc => h hc.2), List.take_length]

/-- The mode_store acceptance test for one keyword is exactly equality of
the newline-stripped text with that keyword. -/
theorem take_keyword_iff (buf kw : List Char) (k : Nat) (hk : kw.length = k) :
    (buf.take k = kw ∧
     (if 0 < buf.length ∧ buf.getLast? = some '\n' then buf.length - 1
      else buf.length) = k) ↔ stripNl buf = kw := by
  have hle : (if 0 < buf.length ∧ buf.getLast? = some '\n' then buf.length - 1
      else buf.length) ≤ buf.length := by split <;> omega
  rw [stripNl_eq_take]
  constructor
  · rintro ⟨h1, h2⟩
    rw [h2, h1]
  · intro h
    have hlt : (buf.take (if 0 < buf.length ∧ buf.getLast? = some '\n'
        then buf.length - 1 else buf.length)).length = kw.length := by rw [h]
    rw [List.length_take] at hlt
    have hlen : (if 0 < buf.length ∧ buf.getLast? = some '\n'
        then buf.length - 1 else buf.length) = k := by omega
    rw [hlen] at h
    exact ⟨h, hlen⟩

/-- Accepted sampling_ms write. -/
theorem sampling_ms_store_ok (d : simtemp_dev) (buf : List Char) (v : Int)
    (hv : kstrtoint buf = some v) (h1 : 1 ≤ v) (h2 : v ≤ 10000) :
    sampling_ms_store d buf =
      (StoreResult.ok buf.length, { d with period_ms := v }) := by
  unfold sampling_ms_store
  rw [hv]
  dsimp only
  rw [if_neg (by omega)]

/-- Rejected sampling_ms write. -/
theorem sampling_ms_store_err (d : simtemp_dev) (buf : List Char)
    (h : ¬ ∃ v, kstrtoint buf = some v ∧ 1 ≤ v ∧ v ≤ 10000) :
    sampling_ms_store d buf = (StoreResult.einval, d) := by
  unfold sampling_ms_store
  rcases hv : kstrtoint buf with - | v
  · rfl
  · dsimp only
    rw [if_pos]
    by_contra hc
    push_neg at hc
    exact h ⟨v, hv, by omega, by omega⟩

/-- sampling_ms acceptance characterization. -/
theorem sampling_ms_store_ok_iff (d : simtemp_dev) (buf : List Char) :
    (∃ r, sampling_ms_store d buf = (StoreResult.ok buf.length, r)) ↔
    (∃ v, kstrtoint buf = some v ∧ 1 ≤ v ∧ v ≤ 10000) := by
  constructor
  · rintro ⟨r, hr⟩
    rcases hv : kstrtoint buf with - | v
    · unfold sampling_ms_store at hr
      rw [hv] at hr
      exact absurd (congrArg Prod.fst hr) (by simp)
    · by_cases hrange : v < 1 ∨ v > 10000
      · unfold sampling_ms_store at hr
        rw [hv] at hr
        dsimp only at hr
        rw [if_pos hrange] at hr
        exact absurd (congrArg Prod.fst hr) (by simp)
      · exact ⟨v, rfl, by omega, by omega⟩
  · rintro ⟨v, hv, h1, h2⟩
    exact ⟨_, sampling_ms_store_ok d buf v hv h1 h2⟩

/-- Accepted threshold_mC write. -/
theorem threshold_mC_store_ok (d : simtemp_dev) (buf : List Char) (v : Int)
    (hv : kstrtoint buf = some v) (h1 : -50000 ≤ v) (h2 : v ≤ 150000) :
    threshold_mC_store d buf =
      (StoreResult.ok buf.length, { d with threshold_mC := v }) := by
  unfold threshold_mC_store kstrtos32
  rw [hv]
  dsimp only
  rw [if_neg (by omega)]

/-- Rejected threshold_mC write. -/
theorem threshold_mC_store_err (d : simtemp_dev) (buf : List Char)
    (h : ¬ ∃ v, kstrtoint buf = some v ∧ -50000 ≤ v ∧ v ≤ 150000) :
    threshold_mC_store d buf = (StoreResult.einval, d) := by
  unfold threshold_mC_store kstrtos32
  rcases hv : kstrtoint buf with - | v
  · rfl
  · dsimp only
    rw [if_pos]
    by_contra hc
    push_neg at hc
    exact h ⟨v, hv, by omega, by omega⟩

/-- threshold_mC acceptance characterization. -/
theorem threshold_mC_store_ok_iff (d : simtemp_dev) (buf : List Char) :
    (∃ r, threshold_mC_store d buf = (StoreResult.ok buf.length, r)) ↔
    (∃ v, kstrtoint buf = some v ∧ -50000 ≤ v ∧ v ≤ 150000) := by
  constructor
  · rintro ⟨r, hr⟩
    rcases hv : kstrtoint buf with - | v
    · unfold threshold_mC_store kstrtos32 at hr
      rw [hv] at hr
      exact absurd (congrArg Prod.fst hr) (by simp)
    · by_cases hrange : v < -50000 ∨ v > 150000
      · unfold threshold_mC_store kstrtos32 at hr
        rw [hv] at hr
        dsimp only at hr
        rw [if_pos hrange] at hr
        exact absurd (congrArg Prod.fst hr) (by simp)
      · exact ⟨v, rfl, by omega, by omega⟩
  · rintro ⟨v, hv, h1, h2⟩
    exact ⟨_, threshold_mC_store_ok d buf v hv h1 h2⟩

/-- Accepted mode write: normal. -/
theorem mode_store_normal (d : simtemp_dev) (buf : List Char)
    (h : stripNl buf = "normal".toList) :
    mode_store d buf = (StoreResult.ok buf.length, { d with mode := 0 }) := by
  unfold mode_store
  dsimp only
  rw [if_pos ((take_keyword_iff buf ("normal".toList) 6 (by decide)).mpr h)]

/-- Accepted mode write: noisy. -/
theorem mode_store_noisy (d : simtemp_dev) (buf : List Char)
    (h : stripNl buf = "noisy".toList) :
    mode_store d buf = (StoreResult.ok buf.length, { d with mode := 1 }) := by
  unfold mode_store
  dsimp only
  rw [if_neg, if_pos ((take_keyword_iff buf ("noisy".toList) 5 (by decide)).mpr h)]
  intro hc
  have := (take_keyword_iff buf ("normal".toList) 6 (by decide)).mp hc
  rw [h] at this
  exact absurd this (by decide)

/-- Accepted mode write: ramp. -/
theorem mode_store_ramp (d : simtemp_dev) (buf : List Char)
    (h : stripNl buf = "ramp".toList) :
    mode_store d buf = (StoreResult.ok buf.length, { d with mode := 2 }) := by
  unfold mode_store
  dsimp only
  rw [if_neg, if_neg, if_pos ((take_keyword_iff buf ("ramp".toList) 4 (by decide)).mpr h)]
  · intro hc
    have := (take_keyword_iff buf ("noisy".toList) 5 (by decide)).mp hc
    rw [h] at this
    exact absurd this (by decide)
  · intro hc
    have := (take_keyword_iff buf ("normal".toList) 6 (by decide)).mp hc
    rw [h] at this
    exact absurd this (by decide)

/-- Rejected mode write. -/
theorem mode_store_err (d : simtemp_dev) (buf : List Char)
    (h : ¬ (stripNl buf = "normal".toList ∨ stripNl buf = "noisy".toList ∨
        stripNl buf = "ramp".toList)) :
    mode_store d buf = (StoreResult.einval, d) := by
  unfold mode_store
  dsimp only
  rw [if_neg, if_neg, if_neg]
  · intro hc
    exact h (Or.inr (Or.inr ((take_keyword_iff buf ("ramp".toList) 4 (by decide)).mp hc)))
  · intro hc
    exact h (Or.inr (Or.inl ((take_keyword_iff buf ("noisy".toList) 5 (by decide)).mp hc)))
  · intro hc
    exact h (Or.inl ((take_keyword_iff buf ("normal".toList) 6 (by decide)).mp hc))

/-- mode acceptance characterization. -/
theorem mode_store_ok_iff (d : simtemp_dev) (buf : List Char) :
    (∃ r, mode_store d buf = (StoreResult.ok buf.length, r)) ↔
    (stripNl buf = "normal".toList ∨ stripNl buf = "noisy".toList ∨
     stripNl buf = "ramp".toList) := by
  constructor
  · rintro ⟨r, hr⟩
    by_contra h
    rw [mode_store_err d buf h] at hr
    exact absurd (congrArg Prod.fst hr) (by simp)
  · intro h
    rcases h with h | h | h
    · exact ⟨_, mode_store_normal d buf h⟩
    · exact ⟨_, mode_store_noisy d buf h⟩
    · exact ⟨_, mode_store_ramp d buf h⟩

/-- Claim C4: a write to sampling_ms is accepted iff it parses as a
decimal integer in [1, 10000]; a write to threshold_mC iff it parses as
a signed decimal integer in [-50000, 150000]; a write to mode iff, after
stripping at most one trailing newline, the text is exactly one of
normal, noisy, ramp.  Every rejected write returns INVALID_ARGUMENT and
leaves the whole configuration unchanged. -/
theorem C4_store_validation (d : simtemp_dev) (buf : List Char) :
    ((∃ r, sampling_ms_store d buf = (StoreResult.ok buf.length, r)) ↔
      (∃ v, kstrtoint buf = some v ∧ 1 ≤ v ∧ v ≤ 10000)) ∧
    (∀ v, kstrtoint buf = some v → 1 ≤ v → v ≤ 10000 →
      sampling_ms_store d buf
        = (StoreResult.ok buf.length, { d with period_ms := v })) ∧
    ((¬ ∃ v, kstrtoint buf = some v ∧ 1 ≤ v ∧ v ≤ 10000) →
      sampling_ms_store d buf = (StoreResult.einval, d)) ∧
    ((∃ r, threshold_mC_store d buf = (StoreResult.ok buf.length, r)) ↔
      (∃ v, kstrtoint buf = some v ∧ -50000 ≤ v ∧ v ≤ 150000)) ∧
    (∀ v, kstrtoint buf = some v → -50000 ≤ v → v ≤ 150000 →
      threshold_mC_store d buf
        = (StoreResult.ok buf.length, { d with threshold_mC := v })) ∧
    ((¬ ∃ v, kstrtoint buf = some v ∧ -50000 ≤ v ∧ v ≤ 150000) →
      threshold_mC_store d buf = (StoreResult.einval, d)) ∧
    ((∃ r, mode_store d buf = (StoreResult.ok buf.length, r)) ↔
      (stripNl buf = "normal".toList ∨ stripNl buf = "noisy".toList ∨
       stripNl buf = "ramp".toList)) ∧
    (stripNl buf = "normal".toList →
      mode_store d buf = (StoreResult.ok buf.length, { d with mode := 0 })) ∧
    (stripNl buf = "noisy".toList →
      mode_store d buf = (StoreResult.ok buf.length, { d with mode := 1 })) ∧
    (stripNl buf = "ramp".toList →
      mode_store d buf = (StoreResult.ok buf.length, { d with mode := 2 })) ∧
    ((¬ (stripNl buf = "normal".toList ∨ stripNl buf = "noisy".toList ∨
        stripNl buf = "ramp".toList)) →
      mode_store d buf = (StoreResult.einval, d)) :=
  ⟨sampling_ms_store_ok_iff d buf,
   fun v hv h1 h2 => sampling_ms_store_ok d buf v hv h1 h2,
   sampling_ms_store_err d buf,
   threshold_mC_store_ok_iff d buf,
   fun v hv h1 h2 => threshold_mC_store_ok d buf v hv h1 h2,
   threshold_mC_store_err d buf,
   mode_store_ok_iff d buf,
   mode_store_normal d buf,
   mode_store_noisy d buf,
   mode_store_ramp d buf,
   mode_store_err d buf⟩

/-- Claim C8: for every value accepted by a write to sampling_ms,
threshold_mC or mode, a subsequent read of the same attribute returns
the canonical textual form of the value followed by exactly one
newline. -/
theorem C8_round_trip (d : simtemp_dev) (buf : List Char) :
    (∀ v, kstrtoint buf = some v → 1 ≤ v → v ≤ 10000 →
      sampling_ms_show (sampling_ms_store d buf).2
        = (toString v).toList ++ ['\n']) ∧
    (∀ v, kstrtoint buf = some v → -50000 ≤ v → v ≤ 150000 →
      threshold_mC_show (threshold_mC_store d buf).2
        = (toString v).toList ++ ['\n']) ∧
    (stripNl buf = "normal".toList →
      mode_show (mode_store d buf).2 = "normal".toList ++ ['\n']) ∧
    (stripNl buf = "noisy".toList →
      mode_show (mode_store d buf).2 = "noisy".toList ++ ['\n']) ∧
    (stripNl buf = "ramp".toList →
      mode_show (mode_store d buf).2 = "ramp".toList ++ ['\n']) := by
  refine ⟨?_, ?_, ?_, ?_, ?_⟩
  · intro v hv h1 h2
    rw [sampling_ms_store_ok d buf v hv h1 h2]
    rfl
  · intro v hv h1 h2
    rw [threshold_mC_store_ok d buf v hv h1 h2]
    rfl
  · intro h
    rw [mode_store_normal d buf h]
    rfl
  · intro h
    rw [mode_store_noisy d buf h]
    rfl
  · intro h
    rw [mode_store_ramp d buf h]
    rfl

theorem C4_store_validation_witness :
    sampling_ms_store simtemp_init ("250".toList)
      = (StoreResult.ok 3, { simtemp_init with period_ms := 250 }) :=
  (C4_store_validation simtemp_init ("250".toList)).2.1 250
    (by decide) (by decide) (by decide)

theorem C8_round_trip_witness :
    sampling_ms_show (sampling_ms_store simtemp_init ("250".toList)).2
      = (toString (250 : Int)).toList ++ ['\n'] :=
  (C8_round_trip simtemp_init ("250".toList)).1 250
    (by decide) (by decide) (by decide)

theorem C1_threshold_detector_witness :
    (simtemp_work_fn simtemp_init 0 0).2.threshold_crossings
      = simtemp_init.threshold_crossings ∧
    (simtemp_work_fn simtemp_init 0 0).2.above_threshold
      = simtemp_init.above_threshold :=
  ((C1_threshold_detector simtemp_init 0 0).2.2.2 (by decide)).2

theorem C3_read_contract_witness :
    simtemp_read oneSampleDev 15 true true = (ReadResult.einval, oneSampleDev) :=
  (C3_read_contract oneSampleDev 15 true true oneSampleDev_inv).1 (by decide)

theorem C10_lost_sample_witness :
    (simtemp_read oneSampleDev 16 false false).1 = ReadResult.efault :=
  (C10_lost_sample oneSampleDev 16 false oneSampleDev_inv (by decide) (by decide)).1

theorem C5_flags_counters_witness :
    (simtemp_work_fn simtemp_init 0 0).2.total_samples
      = simtemp_init.total_samples + 1 :=
  (C5_flags_counters simtemp_init 0 0 []).2.2.1

theorem C6_ramp_generator_witness :
    20000 ≤ (simtemp_work_fn (applyOps simtemp_init []) 0 0).1.temp_mC :=
  (C6_ramp_generator [] 0 0 rfl).2.2.2.2.2.1

theorem C7_noisy_range_witness :
    20000 ≤ (simtemp_work_fn noisyDev 0 0).1.temp_mC :=
  (C7_noisy_range noisyDev 0 0 rfl).1

theorem C9_ramp_persistence_witness :
    (mode_store simtemp_init ("normal".toList)).2.ramp = simtemp_init.ramp :=
  (C9_ramp_persistence simtemp_init ("normal".toList) 0 0).1

end NxpSimtemp
